import Mathlib

/-!
Shallow embedding of `util/rate_limiter_multi_tenant.cc`
(`MultiTenantRateLimiter`), the multi-tenant token-bucket rate limiter.

Machine integers (`int64_t`) are modelled as `Int`; all quantities the
limiter manipulates stay far from the 64-bit boundary except in
`CalculateRefillBytesPerPeriodLocked`, whose overflow behaviour is modelled
explicitly by a checked variant.  The mutex-protected bodies of the member
functions are modelled as pure state transformers on `RLState`; condition
variables are modelled by returning the list of records whose `cv` is
signalled, in signal order.  Priorities are indices `0 = IO_LOW`,
`1 = IO_MID`, `2 = IO_HIGH`, `3 = IO_USER`; `IO_TOTAL = 4`.
-/

/-- Modelled from the spec: the number of tenants `kTGNumClients` lives in the
header `rate_limiter_multi_tenant_impl.h`, which is not part of the sources;
the spec fixes T = 5, consistent with `client_order` being initialised to the
five entries 0,1,2,3,4 in `RefillBytesAndGrantRequestsLocked`. -/
def kTGNumClients : Nat := 5

/-- Modelled from the spec: the header constant `kMicrosecondsPerSecond`,
the 1e6 divisor of the refill formula in the spec. -/
def kMicrosecondsPerSecond : Int := 1000000

/-- `std::numeric_limits<int64_t>::max()`. -/
def int64Max : Int := 9223372036854775807

/-- A pending request record (`struct MultiTenantRateLimiter::Req`).
`request_bytes` and `bytes` are both initialised to the enqueued residual
by the constructor; `bytes` is never mutated afterwards.  The `id` field
stands for the identity of the stack-allocated C++ record (its address),
so that signalling and accounting can be traced per record. -/
structure Req where
  id : Nat
  request_bytes : Int
  bytes : Int
deriving DecidableEq

/-- The mutable state of one `MultiTenantRateLimiter` instance.
`multi_tenant_queue` is the 5 x 4 matrix `multi_tenant_queue_[client][pri]`;
`queue` is the legacy single-tenant array `queue_[pri]` (4 queues), which
`Request` never pushes to but the destructor still reads.
`calls_per_client` models the C array `calls_per_client_[kTGNumClients]` as a
map keyed by `Int`, so that the raw (possibly negative) index the code uses
is visible in the model. -/
structure RLState where
  refill_period_us : Int
  rate_bytes_per_sec : Int
  refill_bytes_per_period : Int
  raw_single_burst_bytes : Int
  available_bytes_arr : List Int
  multi_tenant_queue : List (List (List Req))
  queue : List (List Req)
  total_requests : List Int
  total_bytes_through : List Int
  calls_per_client : Int → Int
  total_calls : Int
  next_refill_us : Int
  stop : Bool
  requests_to_wait : Int

/-- `MultiTenantRateLimiter::CalculateRefillBytesPerPeriodLocked`.  The C++
reads the member `refill_period_us_`; here it is the first argument. -/
def CalculateRefillBytesPerPeriodLocked (refill_period_us rate_bytes_per_sec : Int) : Int :=
  if int64Max / rate_bytes_per_sec < refill_period_us then
    int64Max / kMicrosecondsPerSecond
  else
    rate_bytes_per_sec * refill_period_us / kMicrosecondsPerSecond

/-- `true` exactly when `x` is representable as a C++ `int64_t`. -/
def fitsInt64 (x : Int) : Bool :=
  decide (-(2 ^ 63) ≤ x) && decide (x < 2 ^ 63)

/-- Overflow-checked rendering of `CalculateRefillBytesPerPeriodLocked`: the
multiplication `rate_bytes_per_sec * refill_period_us_`, the only operation
that could overflow, is guarded; `none` would mean signed overflow (undefined
behaviour in C++). -/
def CalculateRefillBytesPerPeriodChecked (refill_period_us rate_bytes_per_sec : Int) :
    Option Int :=
  if int64Max / rate_bytes_per_sec < refill_period_us then
    some (int64Max / kMicrosecondsPerSecond)
  else
    let p := rate_bytes_per_sec * refill_period_us
    if fitsInt64 p then some (p / kMicrosecondsPerSecond) else none

/-- The constructor `MultiTenantRateLimiter::MultiTenantRateLimiter`: halves
the rate when auto-tuned, derives `refill_bytes_per_period_`, zeroes every
counter and bucket, starts with empty queues, `stop_ = false`,
`next_refill_us_ = NowMicrosMonotonicLocked()`. -/
def mkLimiter (rate_bytes_per_sec refill_period_us : Int) (auto_tuned : Bool)
    (single_burst_bytes : Int) (now : Int) : RLState :=
  let rate := if auto_tuned then rate_bytes_per_sec / 2 else rate_bytes_per_sec
  { refill_period_us := refill_period_us
    rate_bytes_per_sec := rate
    refill_bytes_per_period := CalculateRefillBytesPerPeriodLocked refill_period_us rate
    raw_single_burst_bytes := single_burst_bytes
    available_bytes_arr := List.replicate kTGNumClients 0
    multi_tenant_queue := List.replicate kTGNumClients (List.replicate 4 [])
    queue := List.replicate 4 []
    total_requests := List.replicate 4 0
    total_bytes_through := List.replicate 4 0
    calls_per_client := fun _ => 0
    total_calls := 0
    next_refill_us := now
    stop := false
    requests_to_wait := 0 }

/-- Return status of `SetSingleBurstBytes` (`rocksdb::Status`). -/
inductive Status where
  | ok
  | invalidArgument
deriving DecidableEq

/-- `MultiTenantRateLimiter::SetSingleBurstBytes`. -/
def SetSingleBurstBytes (s : RLState) (single_burst_bytes : Int) : Status × RLState :=
  if single_burst_bytes < 0 then
    (Status.invalidArgument, s)
  else
    (Status.ok, { s with raw_single_burst_bytes := single_burst_bytes })

/-- How the (modelled prefix of a) `Request` call returned. -/
inductive ReqOutcome where
  | invalidInput
  | stopped
  | granted
  | enqueued (r : Req)
deriving DecidableEq

/-- Push a record to the back of `multi_tenant_queue_[t][p]`. -/
def pushQueue (m : List (List (List Req))) (t p : Nat) (r : Req) :
    List (List (List Req)) :=
  m.set t ((m.getD t []).set p ((m.getD t []).getD p [] ++ [r]))

/-- The synchronous part of `MultiTenantRateLimiter::Request(bytes, pri, stats)`:
everything up to and including either an immediate return (invalid client id,
stopped, fully granted from the bucket) or the enqueue of a fresh record,
i.e. the code before the coordinator loop.  `raw` is the value returned by the
tenant source (`TG_GetThreadMetadata().client_id`); `newId` is the identity of
the record being stack-allocated.  Mirrors the source order: the invalid check,
the UNSET remap into the local `client_id`, the increment of
`calls_per_client_[thread_metadata.client_id]` (the raw id, not the remapped
one), the `total_calls_` post-increment-with-reset, the clamp
`bytes = max(0, bytes)`, the `stop_` check, `++total_requests_[pri]`, the
fast path against `available_bytes_arr_[client_id]`, and the enqueue. -/
def requestStep (raw bytes : Int) (pri : Nat) (newId : Nat) (s : RLState) :
    RLState × ReqOutcome :=
  if raw = -2 then
    (s, ReqOutcome.invalidInput)
  else
    let client_id : Int := if raw = -1 then 1 else raw
    let s1 := { s with
      calls_per_client := fun k =>
        if k = raw then s.calls_per_client raw + 1 else s.calls_per_client k
      total_calls := if s.total_calls ≥ 1000 then 0 else s.total_calls + 1 }
    let bytes1 := max 0 bytes
    if s1.stop then
      (s1, ReqOutcome.stopped)
    else
      let s2 := { s1 with
        total_requests := s1.total_requests.set pri (s1.total_requests.getD pri 0 + 1) }
      let ci := client_id.toNat
      let avail := s2.available_bytes_arr.getD ci 0
      let step :=
        if avail > 0 then
          let bytes_through := min avail bytes1
          ({ s2 with
              total_bytes_through := s2.total_bytes_through.set pri
                (s2.total_bytes_through.getD pri 0 + bytes_through)
              available_bytes_arr := s2.available_bytes_arr.set ci (avail - bytes_through) },
            bytes1 - bytes_through)
        else
          (s2, bytes1)
      if step.2 = 0 then
        (step.1, ReqOutcome.granted)
      else
        ({ step.1 with
            multi_tenant_queue := pushQueue step.1.multi_tenant_queue ci pri
              ⟨newId, step.2, step.2⟩ },
          ReqOutcome.enqueued ⟨newId, step.2, step.2⟩)

/-- Result of draining one `(tenant, priority)` queue during refill. -/
structure DrainOut where
  avail : Int
  through : Int
  queue : List Req
  granted : List Req
deriving DecidableEq

/-- The inner `while (!queue->empty())` loop of
`RefillBytesAndGrantRequestsLocked` on one queue: peek the front record; if
fewer bytes are available than it demands, partially grant (reduce its
`request_bytes` by all the available bytes, zero them, break); else charge its
`request_bytes`, zero them, add its `bytes` to the through counter, pop and
signal it.  `granted` is the list of popped (signalled) records in pop
order. -/
def drainQueue (avail through : Int) : List Req → DrainOut
  | [] => ⟨avail, through, [], []⟩
  | r :: rest =>
    if avail < r.request_bytes then
      ⟨0, through, { r with request_bytes := r.request_bytes - avail } :: rest, []⟩
    else
      let d := drainQueue (avail - r.request_bytes) (through + r.bytes) rest
      ⟨d.avail, d.through, d.queue, { r with request_bytes := 0 } :: d.granted⟩

/-- Result of draining all four priority queues of one tenant. -/
structure TenantDrainOut where
  avail : Int
  queues : List (List Req)
  through : List Int
  granted : List Req
deriving DecidableEq

/-- The `for (int j = Env::IO_TOTAL - 1; j >= Env::IO_LOW; --j)` loop of
`RefillBytesAndGrantRequestsLocked` for one tenant, threading the available
byte count down from priority `j` to priority 0.  `through` is the global
`total_bytes_through_` array (one cell per priority). -/
def drainFrom (avail : Int) (qs : List (List Req)) (through : List Int) :
    Nat → TenantDrainOut
  | 0 =>
    let d := drainQueue avail (through.getD 0 0) (qs.getD 0 [])
    ⟨d.avail, qs.set 0 d.queue, through.set 0 d.through, d.granted⟩
  | j + 1 =>
    let d := drainQueue avail (through.getD (j + 1) 0) (qs.getD (j + 1) [])
    let rest := drainFrom d.avail (qs.set (j + 1) d.queue) (through.set (j + 1) d.through) j
    ⟨rest.avail, rest.queues, rest.through, d.granted ++ rest.granted⟩

/-- Accumulator for the outer tenant loop of the refill. -/
structure RefillAcc where
  avail : List Int
  queues : List (List (List Req))
  through : List Int
  granted : List Req

/-- The outer `for (int i = 0; i < kTGNumClients; ++i)` loop of
`RefillBytesAndGrantRequestsLocked` over the positions of the shuffled
`client_order`.  Exactly as in the source, the queues drained at position `i`
are those of tenant `client_order[i]`, while the available-bytes cell read and
written is `available_bytes_arr_[i]`, indexed by the position `i` itself. -/
def refillTenants (perm : List Nat) (acc : RefillAcc) : List Nat → RefillAcc
  | [] => acc
  | i :: rest =>
    let t := perm.getD i 0
    let d := drainFrom (acc.avail.getD i 0) (acc.queues.getD t []) acc.through 3
    refillTenants perm
      ⟨acc.avail.set i d.avail, acc.queues.set t d.queues, d.through,
        acc.granted ++ d.granted⟩ rest

/-- `MultiTenantRateLimiter::RefillBytesAndGrantRequestsLocked`: advance
`next_refill_us_`, reset every bucket to `refill_bytes_per_period_`, then
drain the tenants in the shuffled order `perm` (the result of
`std::random_shuffle` on 0..4), strict priority order within each tenant.
Returns the new state and the signalled (granted) records in signal order. -/
def RefillBytesAndGrantRequestsLocked (now : Int) (perm : List Nat) (s : RLState) :
    RLState × List Req :=
  let acc := refillTenants perm
    ⟨List.replicate kTGNumClients s.refill_bytes_per_period,
      s.multi_tenant_queue, s.total_bytes_through, []⟩
    [0, 1, 2, 3, 4]
  ({ s with
      next_refill_us := now + s.refill_period_us
      available_bytes_arr := acc.avail
      multi_tenant_queue := acc.queues
      total_bytes_through := acc.through }, acc.granted)

/-- The inner priority scan of the post-grant signalling block in `Request`:
`for (int j = Env::IO_TOTAL - 1; j >= Env::IO_LOW; --j)` over one tenant,
returning the front of the first non-empty queue (the `break` exits this inner
loop as soon as one record is signalled). -/
def scanPriorities (qs : List (List Req)) : Nat → Option Req
  | 0 => (qs.getD 0 []).head?
  | j + 1 =>
    match (qs.getD (j + 1) []).head? with
    | some r => some r
    | none => scanPriorities qs j

/-- The post-grant signalling block of `Request` (executed when
`req.request_bytes == 0` after a coordinator-loop iteration): the outer loop
runs over every tenant `i` in index order, and for each tenant the inner
priority scan signals at most one front record.  Returns the signalled records
in signal order. -/
def signalScan (s : RLState) : List Req :=
  (List.range kTGNumClients).filterMap fun i =>
    scanPriorities (s.multi_tenant_queue.getD i []) 3

/-- Result of the destructor body: the state after the assignments, plus the
records whose `cv` it signals, in signal order. -/
structure DtorOut where
  state : RLState
  signaled : List Req

/-- `MultiTenantRateLimiter::~MultiTenantRateLimiter`, up to the final
`exit_cv_` wait: sets `stop_`, sums the sizes of the legacy queues
`queue_[IO_LOW .. IO_TOTAL)` into `requests_to_wait_`, and signals every
record of those same legacy queues, iterating `i` from `IO_TOTAL - 1` down to
`IO_LOW`.  (The multi-tenant queues are not touched.)  The final
`while (requests_to_wait_ > 0) exit_cv_.Wait()` returns immediately exactly
when the computed `requests_to_wait_` is 0. -/
def destructorLocked (s : RLState) : DtorOut :=
  let queues_size_sum : Nat := ((List.range 4).map fun i => (s.queue.getD i []).length).sum
  ⟨{ s with stop := true, requests_to_wait := (queues_size_sum : Int) },
    ([3, 2, 1, 0].map fun i => s.queue.getD i []).flatten⟩

/-- Total number of records currently enqueued across the multi-tenant queue
matrix, i.e. the number of pending `Request` calls. -/
def pendingCount (s : RLState) : Nat :=
  (s.multi_tenant_queue.map fun t => (t.map List.length).sum).sum

/-- A record as the refill engine grants it: `request_bytes` zeroed,
identity and the immutable `bytes` field kept. -/
def zeroReq (r : Req) : Req :=
  { r with request_bytes := 0 }

/-- The total number of bytes added to `total_bytes_through_` on behalf of
the record with identity `k` by the grants in `l`: each full grant of a
record adds its immutable `bytes` field. -/
def contrib (k : Nat) (l : List Req) : Int :=
  ((l.filter fun r => r.id == k).map Req.bytes).sum

/-- The life of one `(tenant, priority)` queue across successive refill
passes: each pass drains the queue with whatever bytes `a` the refill engine
has left for it when it reaches this queue, and between passes newly arriving
requests are appended at the back (`push_back`).  Returns the final queue and
the concatenation of all grants, in grant order. -/
def runPasses (q : List Req) : List (Int × List Req) → List Req × List Req
  | [] => (q, [])
  | (a, arrivals) :: rest =>
    let d := drainQueue a 0 q
    let out := runPasses (d.queue ++ arrivals) rest
    (out.1, d.granted ++ out.2)

/-- A freshly constructed limiter with rate 1000 B/s and the default
100 ms refill period, so `refill_bytes_per_period = 100`. -/
def limiter0 : RLState := mkLimiter 1000 100000 false 0 0

/-- List helper: writing back the element already stored at an in-bounds
index leaves the list unchanged. -/
theorem set_getD_self {α : Type _} (d : α) (l : List α) :
    ∀ i : Nat, i < l.length → l.set i (l.getD i d) = l := by
  induction l with
  | nil => intro i h; simp at h
  | cons a t ih =>
    intro i h
    cases i with
    | zero => simp
    | succ n =>
      simp only [List.getD_cons_succ, List.set_cons_succ, List.cons.injEq, true_and]
      exact ih n (by simpa using h)

/-- List helper: reading back just after an in-bounds write gives the
written value. -/
theorem getD_set_self {α : Type _} (d a : α) (l : List α) :
    ∀ i : Nat, i < l.length → (l.set i a).getD i d = a := by
  induction l with
  | nil => intro i h; simp at h
  | cons x t ih =>
    intro i h
    cases i with
    | zero => simp
    | succ n =>
      simp only [List.set_cons_succ, List.getD_cons_succ]
      exact ih n (by simpa using h)

/-- Claim C1 (refuted; code bug at line 399 of
`rate_limiter_multi_tenant.cc`): during refill-and-grant, grants are NOT
charged against the bucket of the tenant whose queue is drained; they are
charged against `available_bytes_arr_[i]` where `i` is the POSITION in the
random permutation, while the queue drained is that of tenant
`client_order[i]`.  Concretely: starting from a fresh limiter with
`refill_bytes_per_period = 100`, tenant 1 enqueues a 100-byte record at
priority `IO_USER`; refilling with permutation `[1, 0, 2, 3, 4]` grants the
record in full, yet tenant 1 keeps its full bucket of 100 bytes and the
bucket at index 0 is the one drained to 0.  The claim requires
`available[1] = 0` here. -/
theorem refill_charges_position_bucket_not_tenant :
    (RefillBytesAndGrantRequestsLocked 0 [1, 0, 2, 3, 4]
        (requestStep 1 100 3 0 limiter0).1).2 = [⟨0, 0, 100⟩] ∧
    (RefillBytesAndGrantRequestsLocked 0 [1, 0, 2, 3, 4]
        (requestStep 1 100 3 0 limiter0).1).1.available_bytes_arr =
      [0, 100, 100, 100, 100] := by
  decide

/-- Claim C2 (refuted; code bug at lines 101-112 of
`rate_limiter_multi_tenant.cc`): the destructor sums the sizes of, and
signals the records of, the LEGACY queues `queue_[pri]` — which `Request`
never enqueues into — not the multi-tenant queues where the pending requests
actually sit.  Concretely: after tenant 0 enqueues a 50-byte record (one
pending request), the destructor computes `requests_to_wait_ = 0` and signals
no record at all, so its final wait returns immediately while the pending
request is still enqueued.  The claim requires `requests_to_wait = 1` and the
record's `cv` to be signalled. -/
theorem destructor_ignores_multi_tenant_queues :
    (requestStep 0 50 0 0 limiter0).2 = ReqOutcome.enqueued ⟨0, 50, 50⟩ ∧
    pendingCount (requestStep 0 50 0 0 limiter0).1 = 1 ∧
    (destructorLocked (requestStep 0 50 0 0 limiter0).1).state.requests_to_wait = 0 ∧
    (destructorLocked (requestStep 0 50 0 0 limiter0).1).signaled = [] := by
  decide

/-- Claim C3, counterexample: the `break` in the post-grant signalling block
exits only the inner priority loop; the outer tenant loop continues, so when
two tenants have pending requests TWO head-of-queue records are signalled,
not "exactly one" with the scan stopping entirely.  Here tenant 0 has a
pending 10-byte LOW record and tenant 2 a pending 20-byte MID record, and
both are signalled. -/
theorem signalScan_signals_two_records :
    signalScan (requestStep 2 20 1 1 (requestStep 0 10 0 0 limiter0).1).1 =
      [⟨0, 10, 10⟩, ⟨1, 20, 20⟩] ∧
    (signalScan (requestStep 2 20 1 1 (requestStep 0 10 0 0 limiter0).1).1).length ≠ 1 := by
  decide

/-- Claim C5 (UNSET half refuted; code bug at line 202 of
`rate_limiter_multi_tenant.cc`): a request with tenant id `INVALID` (-2)
returns with the state completely untouched, as claimed; but a request with
tenant id `UNSET` (-1) is NOT processed exactly as a request of tenant 1:
the code increments `calls_per_client_[thread_metadata.client_id]`, i.e. the
counter at the RAW index -1 (an out-of-bounds array access in C++), while a
genuine tenant-1 request increments the counter at index 1.  Bucket and
queue effects do coincide with tenant 1. -/
theorem request_unset_diverges_from_tenant_one :
    (requestStep (-2) 10 3 0 limiter0).1 = limiter0 ∧
    (requestStep (-2) 10 3 0 limiter0).2 = ReqOutcome.invalidInput ∧
    (requestStep (-1) 10 3 0 limiter0).1.calls_per_client (-1) = 1 ∧
    (requestStep (-1) 10 3 0 limiter0).1.calls_per_client 1 = 0 ∧
    (requestStep 1 10 3 0 limiter0).1.calls_per_client (-1) = 0 ∧
    (requestStep 1 10 3 0 limiter0).1.calls_per_client 1 = 1 ∧
    (requestStep (-1) 10 3 0 limiter0).1.multi_tenant_queue =
      (requestStep 1 10 3 0 limiter0).1.multi_tenant_queue ∧
    (requestStep (-1) 10 3 0 limiter0).1.available_bytes_arr =
      (requestStep 1 10 3 0 limiter0).1.available_bytes_arr := by
  exact ⟨rfl, rfl, by decide, by decide, by decide, by decide, by decide, by decide⟩

/-- Claim C8, counterexample: `++total_requests_[pri]` executes before the
`bytes == 0` early return, so a zero-byte request from a valid, running
limiter DOES change limiter state: it increments the per-priority
`total_requests` counter. -/
theorem request_zero_changes_total_requests :
    (requestStep 0 0 3 0 limiter0).2 = ReqOutcome.granted ∧
    (requestStep 0 0 3 0 limiter0).1.total_requests ≠ limiter0.total_requests := by
  decide

/-- Claim C9 (refuted; code bug at line 202 of
`rate_limiter_multi_tenant.cc`): when the tenant source returns the UNSET
sentinel (-1), the access `calls_per_client_[thread_metadata.client_id]++`
uses the raw index -1 — the remap to tenant 1 is applied only to the local
`client_id` variable, after this access pattern was formed.  The model keys
`calls_per_client` by `Int` and shows a write at key -1, which lies outside
`[0, kTGNumClients)`; in C++ this is an out-of-bounds array write. -/
theorem request_unset_calls_index_out_of_bounds :
    (requestStep (-1) 10 3 0 limiter0).1.calls_per_client (-1) ≠
      limiter0.calls_per_client (-1) ∧
    ¬(0 ≤ (-1 : Int) ∧ (-1 : Int) < (kTGNumClients : Int)) := by
  decide

/-- Claim C6: for every positive rate and refill period, the derived
refill size equals `rate * refill_period_us / 1e6` when the product fits a
signed 64-bit integer and `INT64_MAX / 1e6` otherwise, and the computation
never overflows: the checked evaluation (which refuses any intermediate
outside `int64_t`) always succeeds and agrees with the unchecked one. -/
theorem CalculateRefillBytesPerPeriod_no_overflow (refill_period_us rate_bytes_per_sec : Int)
    (hrate : 0 < rate_bytes_per_sec) (hperiod : 0 < refill_period_us) :
    CalculateRefillBytesPerPeriodChecked refill_period_us rate_bytes_per_sec =
      some (CalculateRefillBytesPerPeriodLocked refill_period_us rate_bytes_per_sec) ∧
    (rate_bytes_per_sec * refill_period_us ≤ int64Max →
      CalculateRefillBytesPerPeriodLocked refill_period_us rate_bytes_per_sec =
        rate_bytes_per_sec * refill_period_us / 1000000) ∧
    (int64Max < rate_bytes_per_sec * refill_period_us →
      CalculateRefillBytesPerPeriodLocked refill_period_us rate_bytes_per_sec =
        int64Max / 1000000) := by
  have hcond : (int64Max / rate_bytes_per_sec < refill_period_us) ↔
      int64Max < rate_bytes_per_sec * refill_period_us := by
    rw [Int.ediv_lt_iff_lt_mul hrate, mul_comm]
  unfold CalculateRefillBytesPerPeriodChecked CalculateRefillBytesPerPeriodLocked
  by_cases h : int64Max / rate_bytes_per_sec < refill_period_us
  · rw [if_pos h, if_pos h]
    refine ⟨rfl, ?_, fun _ => rfl⟩
    intro hle
    exact absurd (hcond.mp h) (not_lt.mpr hle)
  · rw [if_neg h, if_neg h]
    have hle : rate_bytes_per_sec * refill_period_us ≤ int64Max :=
      not_lt.mp (mt hcond.mpr h)
    have hpos : 0 < rate_bytes_per_sec * refill_period_us := mul_pos hrate hperiod
    have hfit : fitsInt64 (rate_bytes_per_sec * refill_period_us) = true := by
      simp only [fitsInt64, Bool.and_eq_true, decide_eq_true_eq]
      simp only [int64Max] at hle
      omega
    simp only [hfit, if_true]
    refine ⟨by norm_num, fun _ => by norm_num [kMicrosecondsPerSecond], ?_⟩
    intro hlt
    exact absurd hlt (not_lt.mpr hle)

/-- Witness for C6 at the extreme input of the claim: `rate = INT64_MAX`,
`refill_period_us = 2`; the checked computation succeeds (no overflow) and
agrees with the code. -/
theorem CalculateRefillBytesPerPeriod_no_overflow_witness :
    CalculateRefillBytesPerPeriodChecked 2 int64Max =
      some (CalculateRefillBytesPerPeriodLocked 2 int64Max) :=
  (CalculateRefillBytesPerPeriod_no_overflow 2 int64Max (by decide) (by decide)).1

/-- Claim C7: `SetSingleBurstBytes n` returns `InvalidArgument` exactly when
`n < 0`, in which case the state (in particular the stored raw single-burst
value) is unchanged; for `n >= 0` it returns OK and stores `n`.  (It is the
only operation of the modelled public surface whose return type is a
`Status` at all, so no other operation can return `InvalidArgument`.) -/
theorem SetSingleBurstBytes_invalid_iff_negative (s : RLState) (n : Int) :
    ((SetSingleBurstBytes s n).1 = Status.invalidArgument ↔ n < 0) ∧
    ((SetSingleBurstBytes s n).1 = Status.ok ↔ 0 ≤ n) ∧
    (SetSingleBurstBytes s n).2 =
      (if n < 0 then s else { s with raw_single_burst_bytes := n }) := by
  unfold SetSingleBurstBytes
  split_ifs with h
  · refine ⟨by simpa using h, ?_, rfl⟩
    have hn : ¬(0 ≤ n) := by omega
    simp [hn]
  · refine ⟨?_, by simpa using not_lt.mp h, rfl⟩
    simp [h]

/-- Definition following the words of the amended claim C3: for one tenant,
the record that gets signalled is the front of the highest-priority
non-empty queue — the first non-empty queue when priorities are inspected
from `IO_TOTAL - 1` downward. -/
def specFront (qs : List (List Req)) : Option Req :=
  match (List.range 4).reverse.find? (fun j => !(qs.getD j []).isEmpty) with
  | some j => (qs.getD j []).head?
  | none => none

/-- The inner priority scan (loop with `break`) returns exactly the front of
the highest-priority non-empty queue of the tenant. -/
theorem scanPriorities_eq_specFront (qs : List (List Req)) :
    scanPriorities qs 3 = specFront qs := by
  have h4 : (List.range 4).reverse = [3, 2, 1, 0] := by decide
  simp only [specFront, h4]
  cases h3 : qs.getD 3 [] <;> cases h2 : qs.getD 2 [] <;>
    cases h1 : qs.getD 1 [] <;> cases h0 : qs.getD 0 [] <;>
    simp only [List.getD_eq_getElem?_getD] at h3 h2 h1 h0 <;>
    simp [scanPriorities, List.find?, h3, h2, h1, h0]

/-- Claim C3, amended: after a granted coordinator-loop iteration the code
signals not one record in total but (up to) one record PER TENANT — for every
tenant in index order, the front record of that tenant's highest-priority
non-empty queue; the `break` only ends the priority scan within the current
tenant, and the outer scan continues through all tenants. -/
theorem signalScan_signals_one_per_pending_tenant (s : RLState) :
    signalScan s = (List.range kTGNumClients).filterMap
      (fun i => specFront (s.multi_tenant_queue.getD i [])) := by
  have hfun : (fun i => scanPriorities (s.multi_tenant_queue.getD i []) 3) =
      (fun i => specFront (s.multi_tenant_queue.getD i [])) :=
    funext fun i => scanPriorities_eq_specFront _
  rw [signalScan, hfun]

/-- Claim C8, amended: a zero-byte request from a valid tenant on a running
limiter returns synchronously as granted — it does not block, does not
enqueue a record, and leaves the buckets, the queues, `total_bytes_through`
and the shutdown fields unchanged — BUT it does increment the per-priority
`total_requests` counter (and the per-client call diagnostics), because
`++total_requests_[pri]` precedes the `bytes == 0` check. -/
theorem request_zero_noop_except_counters (s : RLState) (raw : Int) (pri newId : Nat)
    (h0 : 0 ≤ raw) (h5 : raw < (kTGNumClients : Int)) (hstop : s.stop = false)
    (hpri : pri < 4) (hA : s.available_bytes_arr.length = kTGNumClients)
    (hT : s.total_bytes_through.length = 4) :
    (requestStep raw 0 pri newId s).2 = ReqOutcome.granted ∧
    (requestStep raw 0 pri newId s).1.available_bytes_arr = s.available_bytes_arr ∧
    (requestStep raw 0 pri newId s).1.multi_tenant_queue = s.multi_tenant_queue ∧
    (requestStep raw 0 pri newId s).1.total_bytes_through = s.total_bytes_through ∧
    (requestStep raw 0 pri newId s).1.queue = s.queue ∧
    (requestStep raw 0 pri newId s).1.stop = s.stop ∧
    (requestStep raw 0 pri newId s).1.requests_to_wait = s.requests_to_wait ∧
    (requestStep raw 0 pri newId s).1.next_refill_us = s.next_refill_us ∧
    (requestStep raw 0 pri newId s).1.raw_single_burst_bytes = s.raw_single_burst_bytes ∧
    (requestStep raw 0 pri newId s).1.total_requests =
      s.total_requests.set pri (s.total_requests.getD pri 0 + 1) := by
  have hne2 : ¬(raw = -2) := by omega
  have hne1 : ¬(raw = -1) := by omega
  have hciN : raw.toNat < s.available_bytes_arr.length := by
    rw [hA]; simp only [kTGNumClients] at h5 ⊢; omega
  have hTb : pri < s.total_bytes_through.length := by rw [hT]; omega
  have key : requestStep raw 0 pri newId s =
      ({ s with
          calls_per_client := fun k =>
            if k = raw then s.calls_per_client raw + 1 else s.calls_per_client k
          total_calls := if s.total_calls ≥ 1000 then 0 else s.total_calls + 1
          total_requests := s.total_requests.set pri (s.total_requests.getD pri 0 + 1) },
        ReqOutcome.granted) := by
    have hsetA : s.available_bytes_arr.set raw.toNat
        (s.available_bytes_arr[raw.toNat]?.getD 0) = s.available_bytes_arr := by
      simpa [List.getD_eq_getElem?_getD] using
        set_getD_self 0 s.available_bytes_arr raw.toNat hciN
    have hsetT : s.total_bytes_through.set pri
        (s.total_bytes_through[pri]?.getD 0) = s.total_bytes_through := by
      simpa [List.getD_eq_getElem?_getD] using
        set_getD_self 0 s.total_bytes_through pri hTb
    by_cases hav : 0 < s.available_bytes_arr[raw.toNat]?.getD 0
    · have hmin : s.available_bytes_arr[raw.toNat]?.getD 0 ⊓ 0 = 0 :=
        inf_eq_right.mpr hav.le
      simp [requestStep, hne2, hne1, hstop, hav, hmin, hsetA, hsetT]
    · simp [requestStep, hne2, hne1, hstop, hav]
  rw [key]
  exact ⟨rfl, rfl, rfl, rfl, rfl, rfl, rfl, rfl, rfl, rfl⟩

/-- Witness for the amended claim C8 at a concrete input: tenant 3 requests
0 bytes at priority `IO_HIGH` on a fresh limiter. -/
theorem request_zero_noop_except_counters_witness :
    (requestStep 3 0 2 0 limiter0).2 = ReqOutcome.granted ∧
    (requestStep 3 0 2 0 limiter0).1.available_bytes_arr = limiter0.available_bytes_arr :=
  ⟨(request_zero_noop_except_counters limiter0 3 2 0 (by decide) (by decide)
      (by decide) (by decide) (by decide) (by decide)).1,
    (request_zero_noop_except_counters limiter0 3 2 0 (by decide) (by decide)
      (by decide) (by decide) (by decide) (by decide)).2.1⟩

/-- The number of records the drain loop fully grants from the front of one
queue before it stops (empty queue or partial grant), as a function of the
available bytes: the explicit measure of `drainQueue`. -/
def grantCount (avail : Int) : List Req → Nat
  | [] => 0
  | r :: rest =>
    if avail < r.request_bytes then 0
    else grantCount (avail - r.request_bytes) rest + 1

/-- The records granted by one drain are exactly the first `grantCount`
records of the queue, in FIFO order, with `request_bytes` zeroed; the value
of the through counter does not influence which records are granted. -/
theorem drainQueue_granted_eq (a th : Int) (q : List Req) :
    (drainQueue a th q).granted = (q.take (grantCount a q)).map zeroReq := by
  induction q generalizing a th with
  | nil => rfl
  | cons r rest ih =>
    by_cases h : a < r.request_bytes
    · simp [drainQueue, grantCount, h]
    · simp [drainQueue, grantCount, h, ih, zeroReq]

/-- The queue left behind by one drain is the suffix after the granted
records, either untouched (the drain emptied or stopped exactly at the
suffix) or with only the front record's `request_bytes` rewritten (a partial
grant leaves the record at the front). -/
theorem drainQueue_queue_eq (a th : Int) (q : List Req) :
    (drainQueue a th q).queue = q.drop (grantCount a q) ∨
      ∃ r rest, q.drop (grantCount a q) = r :: rest ∧
        ∃ b, (drainQueue a th q).queue = { r with request_bytes := b } :: rest := by
  induction q generalizing a th with
  | nil => exact Or.inl rfl
  | cons r rest ih =>
    by_cases h : a < r.request_bytes
    · refine Or.inr ⟨r, rest, ?_, r.request_bytes - a, ?_⟩
      · simp [grantCount, h]
      · simp [drainQueue, h]
    · have hrec := ih (a - r.request_bytes) (th + r.bytes)
      simpa [drainQueue, grantCount, h] using hrec

/-- Claim C4: within one tenant, the refill engine drains the priority
queues in strict order `IO_USER` (3), `IO_HIGH` (2), `IO_MID` (1), `IO_LOW`
(0) — the granted records are the concatenation, in that priority order, of
FIFO prefixes of the four queues (each granted record with its
`request_bytes` zeroed) — and each residual queue is the corresponding
suffix, where after a partial grant the partially served record is still at
the front of its queue (only its `request_bytes` changed) and processing has
moved on to the next lower priority. -/
theorem drainFrom_strict_priority_fifo (a : Int) (th : List Int) (q0 q1 q2 q3 : List Req) :
    ∃ k3 k2 k1 k0 : Nat,
      (drainFrom a [q0, q1, q2, q3] th 3).granted =
        (q3.take k3).map zeroReq ++ ((q2.take k2).map zeroReq ++
          ((q1.take k1).map zeroReq ++ (q0.take k0).map zeroReq)) ∧
      ((drainFrom a [q0, q1, q2, q3] th 3).queues.getD 3 [] = q3.drop k3 ∨
        ∃ r rest, q3.drop k3 = r :: rest ∧
          ∃ b, (drainFrom a [q0, q1, q2, q3] th 3).queues.getD 3 [] =
            { r with request_bytes := b } :: rest) ∧
      ((drainFrom a [q0, q1, q2, q3] th 3).queues.getD 2 [] = q2.drop k2 ∨
        ∃ r rest, q2.drop k2 = r :: rest ∧
          ∃ b, (drainFrom a [q0, q1, q2, q3] th 3).queues.getD 2 [] =
            { r with request_bytes := b } :: rest) ∧
      ((drainFrom a [q0, q1, q2, q3] th 3).queues.getD 1 [] = q1.drop k1 ∨
        ∃ r rest, q1.drop k1 = r :: rest ∧
          ∃ b, (drainFrom a [q0, q1, q2, q3] th 3).queues.getD 1 [] =
            { r with request_bytes := b } :: rest) ∧
      ((drainFrom a [q0, q1, q2, q3] th 3).queues.getD 0 [] = q0.drop k0 ∨
        ∃ r rest, q0.drop k0 = r :: rest ∧
          ∃ b, (drainFrom a [q0, q1, q2, q3] th 3).queues.getD 0 [] =
            { r with request_bytes := b } :: rest) := by
  simp only [drainFrom, List.getD_cons_succ, List.getD_cons_zero,
    List.set_cons_succ, List.set_cons_zero, Nat.reduceAdd]
  refine ⟨grantCount a q3,
    grantCount (drainQueue a (th.getD 3 0) q3).avail q2,
    grantCount (drainQueue (drainQueue a (th.getD 3 0) q3).avail
      ((th.set 3 (drainQueue a (th.getD 3 0) q3).through).getD 2 0) q2).avail q1,
    grantCount (drainQueue (drainQueue (drainQueue a (th.getD 3 0) q3).avail
        ((th.set 3 (drainQueue a (th.getD 3 0) q3).through).getD 2 0) q2).avail
      (((th.set 3 (drainQueue a (th.getD 3 0) q3).through).set 2
          (drainQueue (drainQueue a (th.getD 3 0) q3).avail
            ((th.set 3 (drainQueue a (th.getD 3 0) q3).through).getD 2 0) q2).through).getD 1 0)
      q1).avail q0,
    ?_, ?_, ?_, ?_, ?_⟩
  · rw [drainQueue_granted_eq, drainQueue_granted_eq, drainQueue_granted_eq,
      drainQueue_granted_eq]
  · exact drainQueue_queue_eq _ _ _
  · exact drainQueue_queue_eq _ _ _
  · exact drainQueue_queue_eq _ _ _
  · exact drainQueue_queue_eq _ _ _

/-- Unfolding of `contrib` on a cons cell. -/
theorem contrib_cons (k : Nat) (r : Req) (l : List Req) :
    contrib k (r :: l) = (if r.id = k then r.bytes else 0) + contrib k l := by
  by_cases h : r.id = k <;> simp [contrib, List.filter_cons, h]

/-- `contrib` distributes over concatenation. -/
theorem contrib_append (k : Nat) (l1 l2 : List Req) :
    contrib k (l1 ++ l2) = contrib k l1 + contrib k l2 := by
  simp [contrib, List.filter_append]

/-- A list containing no record of identity `k` contributes nothing. -/
theorem contrib_eq_zero (k : Nat) (l : List Req) (h : ∀ x ∈ l, x.id ≠ k) :
    contrib k l = 0 := by
  induction l with
  | nil => rfl
  | cons r t ih =>
    rw [contrib_cons, if_neg (h r (by simp))]
    simpa using ih fun x hx => h x (by simp [hx])

/-- Conservation through one drain: every record of the queue ends up either
granted or still queued, with identity and immutable `bytes` intact, so the
contribution of identity `k` splits exactly between the granted records and
the residual queue.  In particular a partial grant (which only rewrites
`request_bytes`) contributes nothing. -/
theorem drainQueue_contrib (k : Nat) (a th : Int) (q : List Req) :
    contrib k (drainQueue a th q).granted + contrib k (drainQueue a th q).queue =
      contrib k q := by
  induction q generalizing a th with
  | nil => simp [drainQueue, contrib]
  | cons r rest ih =>
    by_cases h : a < r.request_bytes
    · simp only [drainQueue, if_pos h]
      rw [contrib_cons, contrib_cons]
      simp [contrib]
    · simp only [drainQueue, if_neg h]
      rw [contrib_cons, contrib_cons]
      have hrec := ih (a - r.request_bytes) (th + r.bytes)
      linarith

/-- Conservation through a whole sequence of refill passes with fresh
arrivals appended between the passes: the contribution of identity `k`
splits between the grants of all passes and the final queue. -/
theorem runPasses_contrib (k : Nat) (passes : List (Int × List Req)) :
    ∀ q : List Req, (∀ p ∈ passes, ∀ x ∈ p.2, x.id ≠ k) →
      contrib k (runPasses q passes).2 + contrib k (runPasses q passes).1 =
        contrib k q := by
  induction passes with
  | nil =>
    intro q _
    simp [runPasses, contrib]
  | cons p rest ih =>
    intro q h
    obtain ⟨a, arrivals⟩ := p
    simp only [runPasses]
    rw [contrib_append]
    have harr : contrib k arrivals = 0 :=
      contrib_eq_zero k arrivals fun x hx => h (a, arrivals) (by simp) x hx
    have hih := ih ((drainQueue a 0 q).queue ++ arrivals)
      fun p hp => h p (by simp [hp])
    have hdq := drainQueue_contrib k a 0 q
    rw [contrib_append] at hih
    linarith

/-- Reading back the queue just pushed to by `pushQueue`. -/
theorem pushQueue_getD (m : List (List (List Req))) (t p : Nat) (r : Req)
    (ht : t < m.length) (hp : p < (m.getD t []).length) :
    ((pushQueue m t p r).getD t []).getD p [] = (m.getD t []).getD p [] ++ [r] := by
  unfold pushQueue
  rw [getD_set_self _ _ _ t ht, getD_set_self _ _ _ p hp]

/-- Claim C10: each granted byte is counted exactly once in
`total_bytes_through`.  For a request that cannot be served fully from the
bucket: the fast path adds only the immediately charged portion
(`min(available, bytes)` when the bucket is positive, nothing otherwise);
the enqueued record carries the residual in both its `bytes` and
`request_bytes` fields; across any sequence of refill passes over its queue
(with arbitrary fresh arrivals pushed at the back in between), partial
grants add nothing and the single full grant adds exactly the enqueued
residual (`record.bytes`); so once the record has left the queue, the
fast-path delta of `total_bytes_through[pri]` plus the contribution of all
refill grants on the record's behalf equals the original `bytes` argument. -/
theorem granted_bytes_counted_once
    (s : RLState) (raw bytes : Int) (pri newId : Nat)
    (h0 : 0 ≤ raw) (h5 : raw < (kTGNumClients : Int)) (hb : 0 ≤ bytes)
    (hstop : s.stop = false) (hpri : pri < 4)
    (hT : s.total_bytes_through.length = 4)
    (hM : s.multi_tenant_queue.length = kTGNumClients)
    (hMt : (s.multi_tenant_queue.getD raw.toNat []).length = 4)
    (r : Req) (henq : (requestStep raw bytes pri newId s).2 = ReqOutcome.enqueued r)
    (passes : List (Int × List Req))
    (hfresh : ∀ p ∈ passes, ∀ x ∈ p.2, x.id ≠ newId)
    (hq0 : ∀ x ∈ (s.multi_tenant_queue.getD raw.toNat []).getD pri [], x.id ≠ newId)
    (hdone : ∀ x ∈ (runPasses
        (((requestStep raw bytes pri newId s).1.multi_tenant_queue.getD raw.toNat []).getD pri [])
        passes).1, x.id ≠ newId) :
    ((requestStep raw bytes pri newId s).1.total_bytes_through.getD pri 0
        - s.total_bytes_through.getD pri 0) +
      contrib newId (runPasses
        (((requestStep raw bytes pri newId s).1.multi_tenant_queue.getD raw.toNat []).getD pri [])
        passes).2 = bytes := by
  have hne2 : ¬(raw = -2) := by omega
  have hne1 : ¬(raw = -1) := by omega
  have hsup : (0 : Int) ⊔ bytes = bytes := sup_eq_right.mpr hb
  have hMn : raw.toNat < s.multi_tenant_queue.length := by
    rw [hM]; simp only [kTGNumClients] at h5 ⊢; omega
  have hpn : pri < (s.multi_tenant_queue.getD raw.toNat []).length := by rw [hMt]; omega
  have hTb : pri < s.total_bytes_through.length := by rw [hT]; omega
  by_cases hav : 0 < s.available_bytes_arr[raw.toNat]?.getD 0
  · by_cases hz : bytes - s.available_bytes_arr[raw.toNat]?.getD 0 ⊓ bytes = 0
    · exfalso
      simp [requestStep, hne2, hne1, hstop, hsup, hav, hz] at henq
    · have key : requestStep raw bytes pri newId s =
          ({ s with
              calls_per_client := fun k =>
                if k = raw then s.calls_per_client raw + 1 else s.calls_per_client k
              total_calls := if s.total_calls ≥ 1000 then 0 else s.total_calls + 1
              total_requests := s.total_requests.set pri (s.total_requests.getD pri 0 + 1)
              total_bytes_through := s.total_bytes_through.set pri
                (s.total_bytes_through.getD pri 0 +
                  s.available_bytes_arr.getD raw.toNat 0 ⊓ bytes)
              available_bytes_arr := s.available_bytes_arr.set raw.toNat
                (s.available_bytes_arr.getD raw.toNat 0 -
                  s.available_bytes_arr.getD raw.toNat 0 ⊓ bytes)
              multi_tenant_queue := pushQueue s.multi_tenant_queue raw.toNat pri
                ⟨newId, bytes - s.available_bytes_arr.getD raw.toNat 0 ⊓ bytes,
                  bytes - s.available_bytes_arr.getD raw.toNat 0 ⊓ bytes⟩ },
            ReqOutcome.enqueued
              ⟨newId, bytes - s.available_bytes_arr.getD raw.toNat 0 ⊓ bytes,
                bytes - s.available_bytes_arr.getD raw.toNat 0 ⊓ bytes⟩) := by
        simp [requestStep, hne2, hne1, hstop, hsup, hav, hz, pushQueue,
          List.getD_eq_getElem?_getD]
      rw [key] at henq hdone ⊢
      simp only [ReqOutcome.enqueued.injEq] at henq
      subst henq
      rw [pushQueue_getD _ _ _ _ hMn hpn] at hdone ⊢
      rw [getD_set_self 0 _ s.total_bytes_through pri hTb]
      have hconsv := runPasses_contrib newId passes
        ((s.multi_tenant_queue.getD raw.toNat []).getD pri [] ++
          [⟨newId, bytes - s.available_bytes_arr.getD raw.toNat 0 ⊓ bytes,
            bytes - s.available_bytes_arr.getD raw.toNat 0 ⊓ bytes⟩]) hfresh
      have hc0 : contrib newId ((s.multi_tenant_queue.getD raw.toNat []).getD pri []) = 0 :=
        contrib_eq_zero _ _ hq0
      have hcf := contrib_eq_zero _ _ hdone
      rw [contrib_append, hc0] at hconsv
      have hcr : contrib newId
          [(⟨newId, bytes - s.available_bytes_arr.getD raw.toNat 0 ⊓ bytes,
            bytes - s.available_bytes_arr.getD raw.toNat 0 ⊓ bytes⟩ : Req)] =
          bytes - s.available_bytes_arr.getD raw.toNat 0 ⊓ bytes := by
        simp [contrib]
      rw [hcr] at hconsv
      have hXeq : s.available_bytes_arr.getD raw.toNat 0 =
          s.available_bytes_arr[raw.toNat]?.getD 0 := List.getD_eq_getElem?_getD ..
      linarith
  · by_cases hz : bytes = 0
    · exfalso
      simp [requestStep, hne2, hne1, hstop, hsup, hav, hz] at henq
    · have key : requestStep raw bytes pri newId s =
          ({ s with
              calls_per_client := fun k =>
                if k = raw then s.calls_per_client raw + 1 else s.calls_per_client k
              total_calls := if s.total_calls ≥ 1000 then 0 else s.total_calls + 1
              total_requests := s.total_requests.set pri (s.total_requests.getD pri 0 + 1)
              multi_tenant_queue := pushQueue s.multi_tenant_queue raw.toNat pri
                ⟨newId, bytes, bytes⟩ },
            ReqOutcome.enqueued ⟨newId, bytes, bytes⟩) := by
        simp [requestStep, hne2, hne1, hstop, hsup, hav, hz, pushQueue,
          List.getD_eq_getElem?_getD]
      rw [key] at henq hdone ⊢
      simp only [ReqOutcome.enqueued.injEq] at henq
      subst henq
      rw [pushQueue_getD _ _ _ _ hMn hpn] at hdone ⊢
      have hconsv := runPasses_contrib newId passes
        ((s.multi_tenant_queue.getD raw.toNat []).getD pri [] ++
          [⟨newId, bytes, bytes⟩]) hfresh
      have hc0 : contrib newId ((s.multi_tenant_queue.getD raw.toNat []).getD pri []) = 0 :=
        contrib_eq_zero _ _ hq0
      have hcf := contrib_eq_zero _ _ hdone
      rw [contrib_append, hc0] at hconsv
      have hcr : contrib newId [(⟨newId, bytes, bytes⟩ : Req)] = bytes := by
        simp [contrib]
      rw [hcr] at hconsv
      linarith

/-- Witness for C10 at a concrete input: tenant 0 requests 12 bytes on a
fresh limiter (bucket empty, so nothing is charged on the fast path), the
record is enqueued, and a single refill pass with 12 available bytes grants
it; the accounted total is 12. -/
theorem granted_bytes_counted_once_witness :
    ((requestStep 0 12 3 0 limiter0).1.total_bytes_through.getD 3 0
        - limiter0.total_bytes_through.getD 3 0) +
      contrib 0 (runPasses
        (((requestStep 0 12 3 0 limiter0).1.multi_tenant_queue.getD (0 : Int).toNat []).getD 3 [])
        [(12, [])]).2 = 12 :=
  granted_bytes_counted_once limiter0 0 12 3 0 (by decide) (by decide) (by decide)
    (by decide) (by decide) (by decide) (by decide) (by decide) ⟨0, 12, 12⟩ (by decide)
    [(12, [])] (by decide) (by decide) (by decide)
